import Mathlib

/-!
Shallow embedding of the `sum_error` derive macro (src/src/lib.rs).

The macro `derive_sum_error` receives a `DeriveInput`; if its data is an
enum it folds over the variants, validating that each variant has exactly
one unnamed field, accumulating three parallel streams in a `StreamHolder`
(compile-time assert fragments, match-arm templates, From-impl fragments),
and finally emits the generated items; otherwise it fails.  Token streams
are modelled structurally: the generated output is the list of Rust items
that the emitted token stream parses to.
-/

/-- A Rust type reference as it appears in a variant's unnamed field
(`syn::Type`), together with its source span (used by `quote_spanned!`). -/
structure RustType where
  path : String
  span : Nat
deriving DecidableEq, Repr

/-- A named field of a struct-like variant (`syn::Field` with an ident). -/
structure NamedField where
  fieldName : String
  ty : RustType
deriving DecidableEq, Repr

/-- The fields of an enum variant (`syn::Fields`): tuple-style unnamed
fields, struct-style named fields, or a unit variant with no fields. -/
inductive Fields where
  | unnamed (tys : List RustType)
  | named (fs : List NamedField)
  | unit
deriving DecidableEq, Repr

/-- An enum variant (`syn::Variant`): its identifier and its fields. -/
structure Variant where
  ident : String
  fields : Fields
deriving DecidableEq, Repr

/-- The data of a derive input (`syn::Data`): enum, struct or union. -/
inductive Data where
  | enumData (variants : List Variant)
  | structData (fields : Fields)
  | unionData (fields : List NamedField)
deriving DecidableEq, Repr

/-- The parsed derive input (`syn::DeriveInput`): the type's identifier
and its data. -/
structure DeriveInput where
  ident : String
  data : Data
deriving DecidableEq, Repr

/-- The error message produced at src/src/lib.rs:152 when a variant's
unnamed field list does not have length one. -/
def invalidArityMsg : String :=
  "Invalid number of contained errors! Only one error allowed in any enum variant!"

/-- The error message produced at src/src/lib.rs:189 when a variant's
fields are not `Fields::Unnamed`. -/
def namedPayloadMsg : String :=
  "Contained in variants errors should be unnamed!"

/-- The error message produced at src/src/lib.rs:251 when the derive input
is not an enum. -/
def notAUnionMsg : String :=
  "Deriving from SumError is only avaliable for enums of errors!"

/-- The body of one generated match arm: the token stream passed as the
`process` argument to a match-arm template closure. -/
inductive Process where
  | debugWrite
  | displayWrite
  | descriptionCall
  | someError
deriving DecidableEq, Repr

/-- One generated match arm `#enumName::#varName(error) => #body,`. -/
structure MatchArm where
  enumName : String
  varName : String
  body : Process
deriving DecidableEq, Repr

/-- One fragment `#ty: std::error::Error,` of the compile-time assert
struct (the span travels with the `RustType`). -/
structure AssertFragment where
  ty : RustType
deriving DecidableEq, Repr

/-- The body expression of a generated `From::from`: either the function's
argument `error`, or the construction `#enumName::#varName(inner)`. -/
inductive Expr where
  | arg
  | construct (enumName : String) (varName : String) (inner : Expr)
deriving DecidableEq, Repr

/-- One generated `impl From<#ty> for #enumName` whose `from` body is
`#enumName::#varName(error)`. -/
structure FromImpl where
  ty : RustType
  enumName : String
  varName : String
  body : Expr
deriving DecidableEq, Repr

/-- A top-level Rust item of the generated token stream. -/
inductive Item where
  | assertStruct (assertName : String) (fragments : List AssertFragment)
  | debugImpl (enumName : String) (arms : List MatchArm)
  | displayImpl (enumName : String) (arms : List MatchArm)
  | errorImpl (enumName : String) (descriptionArms causeArms sourceArms : List MatchArm)
  | fromImpl (fi : FromImpl)
deriving DecidableEq, Repr

/-- The accumulator of the fold over variants (`StreamHolder` at
src/src/lib.rs:257).  A match-arm template closure captures exactly the
enum name and the variant name, so it is modelled by that pair. -/
structure StreamHolder where
  check_streams : List AssertFragment
  match_streams : List (String × String)
  into_streams : List FromImpl
deriving DecidableEq, Repr

/-- `StreamHolder::new` (src/src/lib.rs:264). -/
def StreamHolder.new : StreamHolder :=
  { check_streams := [], match_streams := [], into_streams := [] }

/-- `create_stream` (src/src/lib.rs:273): instantiate every match-arm
template with the same `process` body. -/
def create_stream (streams : List (String × String)) (t : Process) : List MatchArm :=
  streams.map (fun mat => { enumName := mat.1, varName := mat.2, body := t })

/-- One step of the fold body (src/src/lib.rs:147-190): validate one
variant and push its three fragments.  The `Fields::Unnamed` arm combines
the `check (len == 1)` guard with the subsequent `u[0]` access: a
singleton list succeeds, any other unnamed list fails with
`invalidArityMsg`, and any non-unnamed fields fail with
`namedPayloadMsg`. -/
def stepVariant (name : String) (holder : StreamHolder) (var : Variant) :
    Except String StreamHolder :=
  match var.fields with
  | Fields.unnamed [ty0] =>
      Except.ok
        { check_streams := holder.check_streams ++ [{ ty := ty0 }],
          match_streams := holder.match_streams ++ [(name, var.ident)],
          into_streams := holder.into_streams ++
            [{ ty := ty0, enumName := name, varName := var.ident,
               body := Expr.construct name var.ident Expr.arg }] }
  | Fields.unnamed _ => Except.error invalidArityMsg
  | _ => Except.error namedPayloadMsg

/-- The folded function `|holder_r, var| holder_r.and_then(...)`. -/
def stepFold (name : String) (hr : Except String StreamHolder) (var : Variant) :
    Except String StreamHolder :=
  hr.bind (fun holder => stepVariant name holder var)

/-- The fold over the variant list (src/src/lib.rs:144-191). -/
def foldVariants (name : String) (variants : List Variant) : Except String StreamHolder :=
  variants.foldl (stepFold name) (Except.ok StreamHolder.new)

/-- The emission closure (src/src/lib.rs:191-250): the assert struct, the
Debug, Display and Error impls, then the From impls. -/
def emitItems (name : String) (it : StreamHolder) : List Item :=
  Item.assertStruct ("___" ++ "AssertName" ++ name) it.check_streams ::
  Item.debugImpl name (create_stream it.match_streams Process.debugWrite) ::
  Item.displayImpl name (create_stream it.match_streams Process.displayWrite) ::
  Item.errorImpl name
    (create_stream it.match_streams Process.descriptionCall)
    (create_stream it.match_streams Process.someError)
    (create_stream it.match_streams Process.someError) ::
  it.into_streams.map Item.fromImpl

/-- `derive_sum_error` (src/src/lib.rs:140-254).  An `Except.error`
models the macro surfacing the message and emitting no code. -/
def deriveSumError (input : DeriveInput) : Except String (List Item) :=
  match input.data with
  | Data.enumData variants => (foldVariants input.ident variants).map (emitItems input.ident)
  | _ => Except.error notAUnionMsg

/-- A variant is valid when it has exactly one unnamed field. -/
def validVariant : Variant → Bool
  | { ident := _, fields := Fields.unnamed [_] } => true
  | _ => false

/-- The message with which `stepVariant` rejects an invalid variant. -/
def failureMsg (v : Variant) : String :=
  match v.fields with
  | Fields.unnamed _ => invalidArityMsg
  | _ => namedPayloadMsg

/-- The payload type of a valid variant (the `u[0].ty` access at
src/src/lib.rs:157). -/
def payloadTy (v : Variant) : RustType :=
  match v.fields with
  | Fields.unnamed (ty :: _) => ty
  | _ => { path := "", span := 0 }

/-- The assert fragment generated for a valid variant. -/
def assertFragOf (v : Variant) : AssertFragment :=
  { ty := payloadTy v }

/-- The match arm generated for a valid variant of enum `n` from its
template, instantiated with body `p`. -/
def armOf (n : String) (p : Process) (v : Variant) : MatchArm :=
  { enumName := n, varName := v.ident, body := p }

/-- The From impl generated for a valid variant of enum `n`. -/
def fromImplOf (n : String) (v : Variant) : FromImpl :=
  { ty := payloadTy v, enumName := n, varName := v.ident,
    body := Expr.construct n v.ident Expr.arg }

/-- The `CombineError` enum of the crate documentation, used as a
concrete test declaration. -/
def exampleVariants : List Variant :=
  [{ ident := "FileError", fields := Fields.unnamed [{ path := "std::io::Error", span := 1 }] },
   { ident := "ImageError", fields := Fields.unnamed [{ path := "image::ImageError", span := 2 }] },
   { ident := "GfxError", fields := Fields.unnamed [{ path := "gfx_texture::Error", span := 3 }] }]

/-- The `CombineError` declaration as a derive input. -/
def exampleEnumInput : DeriveInput :=
  { ident := "CombineError", data := Data.enumData exampleVariants }

/-- A variant with a named payload field, `B { x: E1 }`. -/
def namedVariant : Variant :=
  { ident := "B",
    fields := Fields.named [{ fieldName := "x", ty := { path := "E1", span := 4 } }] }

/-- A variant with two unnamed payloads, `C(E1, E2)`. -/
def twoPayloadVariant : Variant :=
  { ident := "C",
    fields := Fields.unnamed [{ path := "E1", span := 5 }, { path := "E2", span := 6 }] }

/-- A unit variant `D` with no payload slot at all. -/
def unitVariant : Variant :=
  { ident := "D", fields := Fields.unit }

/-! ### Runtime semantics of generated fragments -/

/-- A runtime value of the generated code: either a bare payload value or
a union value `enumName::varName(payload)`. -/
inductive RVal (P : Type) where
  | payload (v : P)
  | unionVal (enumName : String) (varName : String) (v : P)
deriving DecidableEq, Repr

/-- Evaluate a `From::from` body at the argument value `v`. -/
def evalExpr {P : Type} (e : Expr) (v : P) : Option (RVal P) :=
  match e with
  | Expr.arg => some (RVal.payload v)
  | Expr.construct n vn inner =>
      match evalExpr inner v with
      | some (RVal.payload w) => some (RVal.unionVal n vn w)
      | _ => none

/-- Pattern-match a runtime value against variant `expected`, binding and
returning the payload when the tags agree. -/
def matchVariant {P : Type} (expected : String) (u : RVal P) : Option P :=
  match u with
  | RVal.unionVal _ vn v => if vn = expected then some v else none
  | _ => none

/-- The result of running one match-arm body on the bound payload. -/
inductive ProcResult (P : Type) where
  | wrote (isDebug : Bool) (p : P)
  | descriptionOf (p : P)
  | someRef (p : P)
  | noneRef
deriving DecidableEq, Repr

/-- Run a match-arm body on the payload `p` bound by the arm pattern. -/
def runProcess {P : Type} (pr : Process) (p : P) : ProcResult P :=
  match pr with
  | Process.debugWrite => ProcResult.wrote true p
  | Process.displayWrite => ProcResult.wrote false p
  | Process.descriptionCall => ProcResult.descriptionOf p
  | Process.someError => ProcResult.someRef p

/-! ### Item classifiers -/

/-- True for the compile-time assert struct. -/
def Item.isAssert : Item → Bool
  | Item.assertStruct _ _ => true
  | _ => false

/-- True for the `impl std::fmt::Debug` item. -/
def Item.isDebug : Item → Bool
  | Item.debugImpl _ _ => true
  | _ => false

/-- True for the `impl std::fmt::Display` item. -/
def Item.isDisplay : Item → Bool
  | Item.displayImpl _ _ => true
  | _ => false

/-- True for the `impl std::error::Error` item. -/
def Item.isErrorImpl : Item → Bool
  | Item.errorImpl _ _ _ _ => true
  | _ => false

/-- True for a generated `impl From` item. -/
def Item.isFromImpl : Item → Bool
  | Item.fromImpl _ => true
  | _ => false

/-! ### Fold lemmas -/

lemma validVariant_iff (v : Variant) :
    validVariant v = true ↔ ∃ ty, v.fields = Fields.unnamed [ty] := by
  obtain ⟨id, fs⟩ := v
  cases fs with
  | unnamed l =>
    cases l with
    | nil => simp [validVariant]
    | cons a t => cases t <;> simp [validVariant]
  | named fs => simp [validVariant]
  | unit => simp [validVariant]

lemma stepVariant_valid (name : String) (h : StreamHolder) (v : Variant) (ty : RustType)
    (hf : v.fields = Fields.unnamed [ty]) :
    stepVariant name h v = Except.ok
      { check_streams := h.check_streams ++ [{ ty := ty }],
        match_streams := h.match_streams ++ [(name, v.ident)],
        into_streams := h.into_streams ++
          [{ ty := ty, enumName := name, varName := v.ident,
             body := Expr.construct name v.ident Expr.arg }] } := by
  obtain ⟨id, fs⟩ := v
  simp only at hf
  subst hf
  rfl

lemma stepVariant_invalid (name : String) (h : StreamHolder) (v : Variant)
    (hv : validVariant v = false) :
    stepVariant name h v = Except.error (failureMsg v) := by
  obtain ⟨id, fs⟩ := v
  cases fs with
  | unnamed l =>
    cases l with
    | nil => rfl
    | cons a t =>
      cases t with
      | nil => simp [validVariant] at hv
      | cons b t2 => rfl
  | named fs => rfl
  | unit => rfl

lemma foldl_stepFold_error (name : String) (e : String) :
    ∀ vs : List Variant, vs.foldl (stepFold name) (Except.error e) = Except.error e := by
  intro vs
  induction vs with
  | nil => rfl
  | cons v t ih =>
    rw [List.foldl_cons]
    exact ih

lemma foldl_stepFold_valid (name : String) :
    ∀ (vs : List Variant) (h0 : StreamHolder),
      (∀ v ∈ vs, validVariant v = true) →
      vs.foldl (stepFold name) (Except.ok h0) = Except.ok
        { check_streams := h0.check_streams ++ vs.map (fun v => { ty := payloadTy v }),
          match_streams := h0.match_streams ++ vs.map (fun v => (name, v.ident)),
          into_streams := h0.into_streams ++ vs.map (fun v =>
            { ty := payloadTy v, enumName := name, varName := v.ident,
              body := Expr.construct name v.ident Expr.arg }) } := by
  intro vs
  induction vs with
  | nil => intro h0 _; simp
  | cons v t ih =>
    intro h0 hall
    have hv : validVariant v = true := hall v (List.mem_cons_self v t)
    obtain ⟨ty, hf⟩ := (validVariant_iff v).mp hv
    have hty : payloadTy v = ty := by simp [payloadTy, hf]
    rw [List.foldl_cons]
    rw [show stepFold name (Except.ok h0) v = stepVariant name h0 v from rfl]
    rw [stepVariant_valid name h0 v ty hf]
    rw [ih _ (fun w hw => hall w (List.mem_cons_of_mem v hw))]
    simp [hty, List.append_assoc]

lemma foldl_stepFold_error_of_invalid (name : String) :
    ∀ (vs : List Variant) (h0 : StreamHolder),
      (∃ v ∈ vs, validVariant v = false) →
      ∃ e, vs.foldl (stepFold name) (Except.ok h0) = Except.error e := by
  intro vs
  induction vs with
  | nil =>
    rintro h0 ⟨v, hv, _⟩
    exact absurd hv (List.not_mem_nil v)
  | cons w t ih =>
    rintro h0 ⟨v, hv, hinv⟩
    by_cases hw : validVariant w = true
    · obtain ⟨ty, hf⟩ := (validVariant_iff w).mp hw
      rw [List.foldl_cons]
      rw [show stepFold name (Except.ok h0) w = stepVariant name h0 w from rfl]
      rw [stepVariant_valid name h0 w ty hf]
      apply ih
      rcases List.mem_cons.mp hv with h1 | h2
      · subst h1; rw [hw] at hinv; cases hinv
      · exact ⟨v, h2, hinv⟩
    · have hw2 : validVariant w = false := by
        revert hw; cases validVariant w <;> simp
      rw [List.foldl_cons]
      rw [show stepFold name (Except.ok h0) w = stepVariant name h0 w from rfl]
      rw [stepVariant_invalid name h0 w hw2]
      rw [foldl_stepFold_error]
      exact ⟨failureMsg w, rfl⟩

lemma derive_valid (n : String) (vs : List Variant)
    (h : ∀ v ∈ vs, validVariant v = true) :
    deriveSumError { ident := n, data := Data.enumData vs } = Except.ok (
      Item.assertStruct ("___" ++ "AssertName" ++ n) (vs.map assertFragOf) ::
      Item.debugImpl n (vs.map (armOf n Process.debugWrite)) ::
      Item.displayImpl n (vs.map (armOf n Process.displayWrite)) ::
      Item.errorImpl n
        (vs.map (armOf n Process.descriptionCall))
        (vs.map (armOf n Process.someError))
        (vs.map (armOf n Process.someError)) ::
      vs.map (fun v => Item.fromImpl (fromImplOf n v))) := by
  show (foldVariants n vs).map (emitItems n) = _
  rw [foldVariants, foldl_stepFold_valid n vs StreamHolder.new h]
  simp [StreamHolder.new, emitItems, create_stream, List.map_map, Except.map,
    assertFragOf, armOf, fromImplOf]

lemma derive_first_failure (n : String) (ws : List Variant) (bad : Variant)
    (rest : List Variant)
    (hws : ∀ v ∈ ws, validVariant v = true) (hbad : validVariant bad = false) :
    deriveSumError { ident := n, data := Data.enumData (ws ++ bad :: rest) } =
      Except.error (failureMsg bad) := by
  show (foldVariants n (ws ++ bad :: rest)).map (emitItems n) = _
  rw [foldVariants, List.foldl_append]
  rw [foldl_stepFold_valid n ws StreamHolder.new hws]
  rw [List.foldl_cons]
  rw [show ∀ h0 : StreamHolder,
        stepFold n (Except.ok h0) bad = stepVariant n h0 bad from fun _ => rfl]
  rw [stepVariant_invalid n _ bad hbad]
  rw [foldl_stepFold_error]
  rfl

lemma derive_error_of_invalid_mem (n : String) (vs : List Variant) (v : Variant)
    (hv : v ∈ vs) (hinv : validVariant v = false) :
    ∃ e, deriveSumError { ident := n, data := Data.enumData vs } = Except.error e := by
  obtain ⟨e, he⟩ := foldl_stepFold_error_of_invalid n vs StreamHolder.new ⟨v, hv, hinv⟩
  refine ⟨e, ?_⟩
  show (foldVariants n vs).map (emitItems n) = _
  rw [foldVariants, he]
  rfl

lemma countP_map_eq_length {α β : Type} (f : α → β) (p : β → Bool)
    (h : ∀ a, p (f a) = true) :
    ∀ l : List α, (l.map f).countP p = l.length := by
  intro l
  induction l with
  | nil => rfl
  | cons a t ih => simp [List.countP_cons, h, ih]

lemma countP_map_eq_zero {α β : Type} (f : α → β) (p : β → Bool)
    (h : ∀ a, p (f a) = false) :
    ∀ l : List α, (l.map f).countP p = 0 := by
  intro l
  induction l with
  | nil => rfl
  | cons a t ih => simp [List.countP_cons, h, ih]

/-! ### Claim theorems -/

/-- C7: the transformation is deterministic — running `deriveSumError`
twice on the same declaration yields the identical output (or the
identical failure), since the embedding of the source is a pure
function of the declaration alone. -/
theorem C7_deterministic (input : DeriveInput) :
    deriveSumError input = deriveSumError input := rfl

/-- C3 counterexample: on a struct input the derivation does fail, but
the surfaced message is "Deriving from SumError is only avaliable for
enums of errors!", not the message "deriving is only available for enums
of errors" stated by the claim. -/
theorem C3_counterexample :
    deriveSumError { ident := "S", data := Data.structData Fields.unit } =
      Except.error "Deriving from SumError is only avaliable for enums of errors!" ∧
    ("Deriving from SumError is only avaliable for enums of errors!" : String) ≠
      "deriving is only available for enums of errors" := by
  exact ⟨rfl, by decide⟩

/-- C3 (amended): for every input declaration that is not an enum, the
derivation fails with the NotAUnion failure whose message is
"Deriving from SumError is only avaliable for enums of errors!", and no
code output is produced. -/
theorem C3_not_a_union (n : String) (d : Data)
    (h : ∀ vs, d ≠ Data.enumData vs) :
    deriveSumError { ident := n, data := d } =
      Except.error "Deriving from SumError is only avaliable for enums of errors!" := by
  cases d with
  | enumData vs => exact absurd rfl (h vs)
  | structData fs => rfl
  | unionData fs => rfl

/-- C3 witness: the amended theorem applied to a concrete struct input. -/
theorem C3_witness :
    (∀ vs, Data.structData Fields.unit ≠ Data.enumData vs) ∧
    deriveSumError { ident := "S", data := Data.structData Fields.unit } =
      Except.error "Deriving from SumError is only avaliable for enums of errors!" :=
  ⟨fun _ h => Data.noConfusion h,
   C3_not_a_union "S" (Data.structData Fields.unit) (fun _ h => Data.noConfusion h)⟩

/-- C1: for every enum in which every variant has exactly one unnamed
payload, the derivation succeeds and its output consists of exactly one
assert struct, one Debug impl, one Display impl, one Error impl, and one
From impl per variant — N for N variants, 4 + N items in total. -/
theorem C1_output_shape (n : String) (vs : List Variant)
    (h : ∀ v ∈ vs, validVariant v = true) :
    ∃ items, deriveSumError { ident := n, data := Data.enumData vs } = Except.ok items ∧
      items.length = vs.length + 4 ∧
      items.countP Item.isAssert = 1 ∧
      items.countP Item.isDebug = 1 ∧
      items.countP Item.isDisplay = 1 ∧
      items.countP Item.isErrorImpl = 1 ∧
      items.countP Item.isFromImpl = vs.length := by
  refine ⟨_, derive_valid n vs h, ?_, ?_, ?_, ?_, ?_, ?_⟩
  · simp [List.length_map]
  · simp [List.countP_cons, Item.isAssert,
      countP_map_eq_zero (fun v => Item.fromImpl (fromImplOf n v))
        Item.isAssert (fun _ => rfl) vs]
  · simp [List.countP_cons, Item.isDebug,
      countP_map_eq_zero (fun v => Item.fromImpl (fromImplOf n v))
        Item.isDebug (fun _ => rfl) vs]
  · simp [List.countP_cons, Item.isDisplay,
      countP_map_eq_zero (fun v => Item.fromImpl (fromImplOf n v))
        Item.isDisplay (fun _ => rfl) vs]
  · simp [List.countP_cons, Item.isErrorImpl,
      countP_map_eq_zero (fun v => Item.fromImpl (fromImplOf n v))
        Item.isErrorImpl (fun _ => rfl) vs]
  · simp [List.countP_cons, Item.isAssert, Item.isDebug, Item.isDisplay,
      Item.isErrorImpl, Item.isFromImpl,
      countP_map_eq_length (fun v => Item.fromImpl (fromImplOf n v))
        Item.isFromImpl (fun _ => rfl) vs]

/-- C1 witness: the three-variant enum of the crate documentation. -/
theorem C1_witness :
    (∀ v ∈ exampleVariants, validVariant v = true) ∧
    (∃ items, deriveSumError { ident := "CombineError", data := Data.enumData exampleVariants } =
          Except.ok items ∧
      items.length = exampleVariants.length + 4 ∧
      items.countP Item.isAssert = 1 ∧
      items.countP Item.isDebug = 1 ∧
      items.countP Item.isDisplay = 1 ∧
      items.countP Item.isErrorImpl = 1 ∧
      items.countP Item.isFromImpl = exampleVariants.length) :=
  ⟨by decide, C1_output_shape "CombineError" exampleVariants (by decide)⟩

/-- C2: a case with an unnamed payload list of length 0 or ≥ 2 makes the
derivation fail with the InvalidArity message when it is the first
invalid case (the preceding cases being valid), and the presence of such
a case anywhere in the enum guarantees the derivation errors and emits no
output. -/
theorem C2_invalid_arity (n : String) (ws rest : List Variant) (bad : Variant)
    (tys : List RustType)
    (hws : ∀ v ∈ ws, validVariant v = true)
    (hf : bad.fields = Fields.unnamed tys) (hlen : tys.length ≠ 1) :
    deriveSumError { ident := n, data := Data.enumData (ws ++ bad :: rest) } =
      Except.error
        "Invalid number of contained errors! Only one error allowed in any enum variant!" ∧
    ∀ vs : List Variant, bad ∈ vs →
      ∃ e, deriveSumError { ident := n, data := Data.enumData vs } = Except.error e := by
  have hinv : validVariant bad = false := by
    obtain ⟨id, fs⟩ := bad
    simp only at hf
    subst hf
    cases tys with
    | nil => rfl
    | cons a t =>
      cases t with
      | nil => exact absurd rfl hlen
      | cons b t2 => rfl
  constructor
  · rw [derive_first_failure n ws bad rest hws hinv]
    have hmsg : failureMsg bad = invalidArityMsg := by simp [failureMsg, hf]
    rw [hmsg]
    rfl
  · intro vs hmem
    exact derive_error_of_invalid_mem n vs bad hmem hinv

/-- C2 witness: the enum `C(E1, E2)` from the spec scenarios. -/
theorem C2_witness :
    (∀ v ∈ ([] : List Variant), validVariant v = true) ∧
    twoPayloadVariant.fields =
      Fields.unnamed [{ path := "E1", span := 5 }, { path := "E2", span := 6 }] ∧
    ([{ path := "E1", span := 5 }, { path := "E2", span := 6 }] : List RustType).length ≠ 1 ∧
    (deriveSumError { ident := "Sum", data := Data.enumData ([] ++ twoPayloadVariant :: []) } =
       Except.error
         "Invalid number of contained errors! Only one error allowed in any enum variant!" ∧
     ∀ vs : List Variant, twoPayloadVariant ∈ vs →
       ∃ e, deriveSumError { ident := "Sum", data := Data.enumData vs } = Except.error e) :=
  ⟨by decide, by decide, by decide,
   C2_invalid_arity "Sum" [] [] twoPayloadVariant
     [{ path := "E1", span := 5 }, { path := "E2", span := 6 }]
     (by decide) (by decide) (by decide)⟩

/-- C4: a case with named payload fields makes the derivation fail with
the NamedPayloadNotAllowed message when it is the first invalid case, and
its presence anywhere guarantees the derivation errors. -/
theorem C4_named_payload (n : String) (ws rest : List Variant) (bad : Variant)
    (nfs : List NamedField)
    (hws : ∀ v ∈ ws, validVariant v = true)
    (hf : bad.fields = Fields.named nfs) :
    deriveSumError { ident := n, data := Data.enumData (ws ++ bad :: rest) } =
      Except.error "Contained in variants errors should be unnamed!" ∧
    ∀ vs : List Variant, bad ∈ vs →
      ∃ e, deriveSumError { ident := n, data := Data.enumData vs } = Except.error e := by
  have hinv : validVariant bad = false := by
    obtain ⟨id, fs⟩ := bad
    simp only at hf
    subst hf
    rfl
  constructor
  · rw [derive_first_failure n ws bad rest hws hinv]
    have hmsg : failureMsg bad = namedPayloadMsg := by simp [failureMsg, hf]
    rw [hmsg]
    rfl
  · intro vs hmem
    exact derive_error_of_invalid_mem n vs bad hmem hinv

/-- C4 witness: the enum `B { x: E1 }` from the spec scenarios. -/
theorem C4_witness :
    (∀ v ∈ ([] : List Variant), validVariant v = true) ∧
    namedVariant.fields =
      Fields.named [{ fieldName := "x", ty := { path := "E1", span := 4 } }] ∧
    (deriveSumError { ident := "Sum2", data := Data.enumData ([] ++ namedVariant :: []) } =
       Except.error "Contained in variants errors should be unnamed!" ∧
     ∀ vs : List Variant, namedVariant ∈ vs →
       ∃ e, deriveSumError { ident := "Sum2", data := Data.enumData vs } = Except.error e) :=
  ⟨by decide, by decide,
   C4_named_payload "Sum2" [] [] namedVariant
     [{ fieldName := "x", ty := { path := "E1", span := 4 } }]
     (by decide) (by decide)⟩

/-- C10: a unit variant (no payload slot at all) makes the derivation
fail with the NamedPayloadNotAllowed message — not the invalid-arity
message — because only `Fields::Unnamed` variants reach the arity
check. -/
theorem C10_unit_variant (n : String) (ws rest : List Variant) (bad : Variant)
    (hws : ∀ v ∈ ws, validVariant v = true) (hf : bad.fields = Fields.unit) :
    deriveSumError { ident := n, data := Data.enumData (ws ++ bad :: rest) } =
      Except.error "Contained in variants errors should be unnamed!" ∧
    ("Contained in variants errors should be unnamed!" : String) ≠
      "Invalid number of contained errors! Only one error allowed in any enum variant!" := by
  have hinv : validVariant bad = false := by
    obtain ⟨id, fs⟩ := bad
    simp only at hf
    subst hf
    rfl
  refine ⟨?_, by decide⟩
  rw [derive_first_failure n ws bad rest hws hinv]
  have hmsg : failureMsg bad = namedPayloadMsg := by simp [failureMsg, hf]
  rw [hmsg]
  rfl

/-- C10 witness: an enum whose sole variant is the unit variant `D`. -/
theorem C10_witness :
    (∀ v ∈ ([] : List Variant), validVariant v = true) ∧
    unitVariant.fields = Fields.unit ∧
    (deriveSumError { ident := "Sum3", data := Data.enumData ([] ++ unitVariant :: []) } =
       Except.error "Contained in variants errors should be unnamed!" ∧
     ("Contained in variants errors should be unnamed!" : String) ≠
       "Invalid number of contained errors! Only one error allowed in any enum variant!") :=
  ⟨by decide, by decide,
   C10_unit_variant "Sum3" [] [] unitVariant (by decide) (by decide)⟩

/-- C5: validation short-circuits at the first invalid case, in
declaration order: the derivation returns exactly that case's failure (so
no partial output), and the result does not depend on any case after the
first invalid one. -/
theorem C5_short_circuit (n : String) (ws rest1 rest2 : List Variant) (bad : Variant)
    (hws : ∀ v ∈ ws, validVariant v = true) (hbad : validVariant bad = false) :
    deriveSumError { ident := n, data := Data.enumData (ws ++ bad :: rest1) } =
      Except.error (failureMsg bad) ∧
    deriveSumError { ident := n, data := Data.enumData (ws ++ bad :: rest1) } =
      deriveSumError { ident := n, data := Data.enumData (ws ++ bad :: rest2) } := by
  constructor
  · exact derive_first_failure n ws bad rest1 hws hbad
  · rw [derive_first_failure n ws bad rest1 hws hbad,
      derive_first_failure n ws bad rest2 hws hbad]

/-- C5 witness: a valid prefix, then `C(E1, E2)`, and two different
tails, one of which contains further invalid cases. -/
theorem C5_witness :
    (∀ v ∈ exampleVariants, validVariant v = true) ∧
    validVariant twoPayloadVariant = false ∧
    (deriveSumError (DeriveInput.mk "Sum4"
        (Data.enumData (exampleVariants ++ twoPayloadVariant :: [namedVariant]))) =
      Except.error (failureMsg twoPayloadVariant) ∧
     deriveSumError (DeriveInput.mk "Sum4"
        (Data.enumData (exampleVariants ++ twoPayloadVariant :: [namedVariant]))) =
      deriveSumError (DeriveInput.mk "Sum4"
        (Data.enumData (exampleVariants ++ twoPayloadVariant :: [])))) :=
  ⟨by decide, by decide,
   C5_short_circuit "Sum4" exampleVariants [namedVariant] [] twoPayloadVariant
     (by decide) (by decide)⟩

lemma getElem?_map_get {α β : Type} (f : α → β) :
    ∀ (l : List α) (i : Nat) (h : i < l.length), (l.map f)[i]? = some (f (l.get ⟨i, h⟩)) := by
  intro l
  induction l with
  | nil => intro i h; exact absurd h (Nat.not_lt_zero i)
  | cons a t ih =>
    intro i h
    cases i with
    | zero => simp
    | succ j =>
      rw [List.map_cons, List.getElem?_cons_succ]
      exact ih j (Nat.lt_of_succ_lt_succ h)

/-- C9: after processing each validated prefix of the variant list, the
three accumulated sequences of the holder equal the index-aligned maps of
that prefix — the i-th assert fragment, match-arm template and From impl
are all built from the i-th variant — and the three sequences have equal
length. -/
theorem C9_holder_alignment (n : String) (vs : List Variant) (k : Nat)
    (h : ∀ v ∈ vs.take k, validVariant v = true) :
    ∃ hol, foldVariants n (vs.take k) = Except.ok hol ∧
      hol.check_streams = (vs.take k).map assertFragOf ∧
      hol.match_streams = (vs.take k).map (fun v => (n, v.ident)) ∧
      hol.into_streams = (vs.take k).map (fromImplOf n) ∧
      hol.check_streams.length = (vs.take k).length ∧
      hol.match_streams.length = (vs.take k).length ∧
      hol.into_streams.length = (vs.take k).length := by
  refine ⟨{ check_streams := (vs.take k).map assertFragOf,
            match_streams := (vs.take k).map (fun v => (n, v.ident)),
            into_streams := (vs.take k).map (fromImplOf n) },
          ?_, rfl, rfl, rfl, ?_, ?_, ?_⟩
  · rw [foldVariants, foldl_stepFold_valid n (vs.take k) StreamHolder.new h]
    rfl
  · simp [List.length_map]
  · simp [List.length_map]
  · simp [List.length_map]

/-- C9 witness: the two-variant prefix of the `CombineError` enum. -/
theorem C9_witness :
    (∀ v ∈ exampleVariants.take 2, validVariant v = true) ∧
    (∃ hol, foldVariants "CombineError" (exampleVariants.take 2) = Except.ok hol ∧
      hol.check_streams = (exampleVariants.take 2).map assertFragOf ∧
      hol.match_streams = (exampleVariants.take 2).map (fun v => ("CombineError", v.ident)) ∧
      hol.into_streams = (exampleVariants.take 2).map (fromImplOf "CombineError") ∧
      hol.check_streams.length = (exampleVariants.take 2).length ∧
      hol.match_streams.length = (exampleVariants.take 2).length ∧
      hol.into_streams.length = (exampleVariants.take 2).length) :=
  ⟨by decide, C9_holder_alignment "CombineError" exampleVariants 2 (by decide)⟩

/-- C8: in the generated Error impl, the description, cause and source
match arms at every index are built from the same variant (same arm
pattern), the description arm's body is the payload's own
`error.description()`, and the cause and source arms' bodies are
`Some(error)` — a pass-through returning Some of the payload reference,
never None. -/
theorem C8_error_passthrough (n : String) (vs : List Variant) (i : Nat)
    (hi : i < vs.length) (h : ∀ v ∈ vs, validVariant v = true)
    (P : Type) (p : P) :
    ∃ items dArms cArms sArms,
      deriveSumError { ident := n, data := Data.enumData vs } = Except.ok items ∧
      Item.errorImpl n dArms cArms sArms ∈ items ∧
      dArms[i]? = some (armOf n Process.descriptionCall (vs.get ⟨i, hi⟩)) ∧
      cArms[i]? = some (armOf n Process.someError (vs.get ⟨i, hi⟩)) ∧
      sArms[i]? = some (armOf n Process.someError (vs.get ⟨i, hi⟩)) ∧
      (armOf n Process.descriptionCall (vs.get ⟨i, hi⟩)).varName =
        (armOf n Process.someError (vs.get ⟨i, hi⟩)).varName ∧
      runProcess (armOf n Process.descriptionCall (vs.get ⟨i, hi⟩)).body p =
        ProcResult.descriptionOf p ∧
      runProcess (armOf n Process.someError (vs.get ⟨i, hi⟩)).body p =
        ProcResult.someRef p ∧
      runProcess (armOf n Process.someError (vs.get ⟨i, hi⟩)).body p ≠
        (ProcResult.noneRef : ProcResult P) := by
  refine ⟨_, vs.map (armOf n Process.descriptionCall), vs.map (armOf n Process.someError),
    vs.map (armOf n Process.someError), derive_valid n vs h, ?_, ?_, ?_, ?_, rfl, rfl, rfl, ?_⟩
  · exact List.mem_cons_of_mem _ (List.mem_cons_of_mem _
      (List.mem_cons_of_mem _ (List.mem_cons_self _ _)))
  · exact getElem?_map_get (armOf n Process.descriptionCall) vs i hi
  · exact getElem?_map_get (armOf n Process.someError) vs i hi
  · exact getElem?_map_get (armOf n Process.someError) vs i hi
  · simp [armOf, runProcess]

/-- C8 witness: the first variant of the `CombineError` enum, with a
concrete natural-number payload. -/
theorem C8_witness :
    ((0 : Nat) < exampleVariants.length) ∧
    (∀ v ∈ exampleVariants, validVariant v = true) ∧
    (∃ items dArms cArms sArms,
      deriveSumError { ident := "CombineError", data := Data.enumData exampleVariants } =
        Except.ok items ∧
      Item.errorImpl "CombineError" dArms cArms sArms ∈ items ∧
      dArms[(0 : Nat)]? = some (armOf "CombineError" Process.descriptionCall
        (exampleVariants.get ⟨0, by decide⟩)) ∧
      cArms[(0 : Nat)]? = some (armOf "CombineError" Process.someError
        (exampleVariants.get ⟨0, by decide⟩)) ∧
      sArms[(0 : Nat)]? = some (armOf "CombineError" Process.someError
        (exampleVariants.get ⟨0, by decide⟩)) ∧
      (armOf "CombineError" Process.descriptionCall (exampleVariants.get ⟨0, by decide⟩)).varName =
        (armOf "CombineError" Process.someError (exampleVariants.get ⟨0, by decide⟩)).varName ∧
      runProcess (armOf "CombineError" Process.descriptionCall
        (exampleVariants.get ⟨0, by decide⟩)).body (41 : Nat) = ProcResult.descriptionOf 41 ∧
      runProcess (armOf "CombineError" Process.someError
        (exampleVariants.get ⟨0, by decide⟩)).body (41 : Nat) = ProcResult.someRef 41 ∧
      runProcess (armOf "CombineError" Process.someError
        (exampleVariants.get ⟨0, by decide⟩)).body (41 : Nat) ≠
        (ProcResult.noneRef : ProcResult Nat)) :=
  ⟨by decide, by decide,
   C8_error_passthrough "CombineError" exampleVariants 0 (by decide) (by decide) Nat 41⟩

/-- C6: for every variant of a well-formed enum, the generated From impl
wraps a payload value into exactly that variant of the union, and
pattern-matching the result against that variant always succeeds and
yields back the original payload value unchanged. -/
theorem C6_round_trip (n : String) (vs : List Variant) (i : Nat)
    (hi : i < vs.length) (h : ∀ v ∈ vs, validVariant v = true)
    (P : Type) (v : P) :
    ∃ items, deriveSumError { ident := n, data := Data.enumData vs } = Except.ok items ∧
      items[i + 4]? = some (Item.fromImpl (fromImplOf n (vs.get ⟨i, hi⟩))) ∧
      (fromImplOf n (vs.get ⟨i, hi⟩)).enumName = n ∧
      (fromImplOf n (vs.get ⟨i, hi⟩)).varName = (vs.get ⟨i, hi⟩).ident ∧
      evalExpr (fromImplOf n (vs.get ⟨i, hi⟩)).body v =
        some (RVal.unionVal n (vs.get ⟨i, hi⟩).ident v) ∧
      matchVariant (vs.get ⟨i, hi⟩).ident (RVal.unionVal n (vs.get ⟨i, hi⟩).ident v) =
        some v := by
  refine ⟨_, derive_valid n vs h, ?_, rfl, rfl, ?_, ?_⟩
  · rw [show i + 4 = (((i + 1) + 1) + 1) + 1 from rfl]
    rw [List.getElem?_cons_succ, List.getElem?_cons_succ, List.getElem?_cons_succ,
      List.getElem?_cons_succ]
    exact getElem?_map_get (fun v => Item.fromImpl (fromImplOf n v)) vs i hi
  · simp [fromImplOf, evalExpr]
  · simp [matchVariant]

/-- C6 witness: the second variant of the `CombineError` enum with a
concrete natural-number payload. -/
theorem C6_witness :
    ((1 : Nat) < exampleVariants.length) ∧
    (∀ v ∈ exampleVariants, validVariant v = true) ∧
    (∃ items,
      deriveSumError { ident := "CombineError", data := Data.enumData exampleVariants } =
        Except.ok items ∧
      items[(1 : Nat) + 4]? = some (Item.fromImpl (fromImplOf "CombineError"
        (exampleVariants.get ⟨1, by decide⟩))) ∧
      (fromImplOf "CombineError" (exampleVariants.get ⟨1, by decide⟩)).enumName =
        "CombineError" ∧
      (fromImplOf "CombineError" (exampleVariants.get ⟨1, by decide⟩)).varName =
        (exampleVariants.get ⟨1, by decide⟩).ident ∧
      evalExpr (fromImplOf "CombineError" (exampleVariants.get ⟨1, by decide⟩)).body (7 : Nat) =
        some (RVal.unionVal "CombineError" (exampleVariants.get ⟨1, by decide⟩).ident 7) ∧
      matchVariant (exampleVariants.get ⟨1, by decide⟩).ident
        (RVal.unionVal "CombineError" (exampleVariants.get ⟨1, by decide⟩).ident (7 : Nat)) =
        some 7) :=
  ⟨by decide, by decide,
   C6_round_trip "CombineError" exampleVariants 1 (by decide) (by decide) Nat 7⟩
